import Mathlib

/-!
Verification of the virtual-conference automation scripts.

This file gives a shallow embedding, in Lean, of the parts of the
repository that the verified properties talk about:

* the pure string and date helpers of `core/schedule.py`
  (`parse_time_slot`, `format_time_slot`, `make_youtube_title`,
  `make_youtube_description`),
* the `Day.get_sessions` row-grouping algorithm,
* the effect traces of `Session.start_streaming`, `Session.stop_streaming`
  and the livestream-patch tail of `Session.schedule_zoom`, and
* the registrant-sync loop `get_all` of `auth0_helper.py` together with
  `format_to_auth0`.

External services (YouTube, Zoom, the spreadsheet, the mail sender) are
modelled by environment records holding the values the code reads from
them, and by explicit traces of the calls the code issues to them.
All definitions come first, then the theorems about them.
-/

namespace VirtConf

/-! ## Time-slot parsing and formatting (schedule.py lines 26-57) -/

/-- `CONFERENCE_YEAR = 2021` in schedule.py. -/
def CONFERENCE_YEAR : Nat := 2021

/-- `conf_tz = timezone(-timedelta(hours=5))` in schedule.py, kept as the
hour offset from UTC. -/
def confTzHours : Int := -5

/-- A Python `datetime` as built by `parse_time_slot`: a calendar field
record plus the fixed conference time zone offset. -/
structure PyDateTime where
  year : Nat
  month : Nat
  day : Nat
  hour : Nat
  minute : Nat
  tzHours : Int
  deriving Repr, DecidableEq

/-- Number of days of a month, as the Python `datetime` constructor
validates the `day` argument. -/
def daysInMonth (year month : Nat) : Nat :=
  if month == 2 then
    if year % 4 == 0 && (year % 100 != 0 || year % 400 == 0) then 29 else 28
  else if month == 4 || month == 6 || month == 9 || month == 11 then 30
  else 31

/-- The `datetime(CONFERENCE_YEAR, month, day, hour, minute, tzinfo=conf_tz)`
constructor calls of `parse_time_slot`; `none` models the `ValueError`
Python raises on out-of-range fields. -/
def mkDatetime (year month day hour minute : Nat) : Option PyDateTime :=
  if 1 ≤ month ∧ month ≤ 12 ∧ 1 ≤ day ∧ day ≤ daysInMonth year month
      ∧ hour ≤ 23 ∧ minute ≤ 59 then
    some ⟨year, month, day, hour, minute, confTzHours⟩
  else
    none

/-- Numeric value of a decimal digit character. -/
def digitVal (c : Char) : Nat := c.toNat - '0'.toNat

/-- The regex `(\d\d)(\d\d)-(\d\d)(\d\d)` applied to a character list.
`re.match` anchors at the start of the string and ignores trailing
characters, so a longer tail is accepted. -/
def matchTimeslotChars : List Char → Option (Nat × Nat × Nat × Nat)
  | a1 :: a2 :: b1 :: b2 :: dash :: c1 :: c2 :: d1 :: d2 :: _ =>
    if a1.isDigit && a2.isDigit && b1.isDigit && b2.isDigit && dash == '-'
        && c1.isDigit && c2.isDigit && d1.isDigit && d2.isDigit then
      some (10 * digitVal a1 + digitVal a2, 10 * digitVal b1 + digitVal b2,
            10 * digitVal c1 + digitVal c2, 10 * digitVal d1 + digitVal d2)
    else
      none
  | _ => none

/-- `match_timeslot.match(time_slot)` returning the four numeric groups;
`none` models a failed match (on which `m.group` would raise). -/
def matchTimeslot (s : String) : Option (Nat × Nat × Nat × Nat) :=
  matchTimeslotChars s.data

/-- `parse_time_slot(time_slot, month, day)` from schedule.py: parse the
`HHMM-HHMM` start-end info for a time slot into a pair of datetimes. -/
def parse_time_slot (time_slot : String) (month day : Nat) :
    Option (PyDateTime × PyDateTime) := do
  let (g1, g2, g3, g4) ← matchTimeslot time_slot
  let start ← mkDatetime CONFERENCE_YEAR month day g1 g2
  let stop ← mkDatetime CONFERENCE_YEAR month day g3 g4
  return (start, stop)

/-- Decimal digit character for a value below ten. -/
def digitChar (n : Nat) : Char := Char.ofNat ('0'.toNat + n)

/-- Two-digit zero-padded rendering, as `strftime("%H%M")` renders each
of the hour and minute fields. -/
def pad2 (n : Nat) : String := String.mk [digitChar (n / 10), digitChar (n % 10)]

/-- `format_time_slot(start, end)` from schedule.py:
`start.strftime("%H%M") + "-" + end.strftime("%H%M")`. -/
def format_time_slot (start stop : PyDateTime) : String :=
  (pad2 start.hour ++ pad2 start.minute) ++ "-" ++ (pad2 stop.hour ++ pad2 stop.minute)

/-- The well-formed `HHMM-HHMM` string with the given hour and minute
fields; used to quantify over valid time-slot strings. -/
def timeSlotStr (h1 m1 h2 m2 : Nat) : String :=
  (pad2 h1 ++ pad2 m1) ++ "-" ++ (pad2 h2 ++ pad2 m2)

/-- Validity of a month/day pair for the fixed conference year, exactly
the range the Python `datetime` constructor accepts. -/
def validDate (month day : Nat) : Prop :=
  1 ≤ month ∧ month ≤ 12 ∧ 1 ≤ day ∧ day ≤ daysInMonth CONFERENCE_YEAR month

instance (month day : Nat) : Decidable (validDate month day) := by
  unfold validDate
  infer_instance

/-! ## Session times (schedule.py lines 213-239)

For `Session.session_time` only the `"Time Slot"` column of the rows owned
by the session matters, together with the month and day of the owning
`Day`; the model keeps exactly those. -/

/-- The data `Session.session_time` reads: the `"Time Slot"` cell of each
of the timeslot rows of the session, in row order, plus the month and day
parsed by the `Day` constructor. -/
structure SessionSlots where
  timeslotValues : List String
  month : Nat
  day : Nat
  deriving Repr, DecidableEq

/-- `Session.session_time`: the start of the first time slot and the end
of the last one. `self.timeslot_entry(0, "Time Slot")` is the first row,
`self.timeslot_entry(len(self.timeslots) - 1, "Time Slot")` the last;
`none` models the exceptions raised on a missing row or malformed cell. -/
def session_time (s : SessionSlots) : Option (PyDateTime × PyDateTime) := do
  let first ← s.timeslotValues.get? 0
  let last ← s.timeslotValues.get? (s.timeslotValues.length - 1)
  let p1 ← parse_time_slot first s.month s.day
  let p2 ← parse_time_slot last s.month s.day
  return (p1.1, p2.2)

/-! ## YouTube title and description sanitization (schedule.py lines 67-79) -/

/-- `str.replace(a, b)` for a single-character pattern: every occurrence
of `a` becomes `b`. -/
def replaceChar (a b : Char) (s : String) : String :=
  String.mk (s.data.map (fun c => if c == a then b else c))

/-- `make_youtube_title(title)` from schedule.py: replace `<` and `>` by
spaces, then truncate with `title[0:99]` when longer than 100. -/
def make_youtube_title (title : String) : String :=
  if (replaceChar '>' ' ' (replaceChar '<' ' ' title)).length > 100 then
    String.mk ((replaceChar '>' ' ' (replaceChar '<' ' ' title)).data.take 99)
  else
    replaceChar '>' ' ' (replaceChar '<' ' ' title)

/-- `make_youtube_description(description)` from schedule.py: same rules
with limit 5000 and truncation `description[0:4999]`. -/
def make_youtube_description (description : String) : String :=
  if (replaceChar '>' ' ' (replaceChar '<' ' ' description)).length > 5000 then
    String.mk ((replaceChar '>' ' ' (replaceChar '<' ' ' description)).data.take 4999)
  else
    replaceChar '>' ' ' (replaceChar '<' ' ' description)

/-! ## Streaming lifecycle (schedule.py lines 305-419)

`Session.start_streaming` and `Session.stop_streaming` read a few cells
and the status of the external providers and then issue a sequence of
calls. The model records the values the code reads in `StreamEnv` and the
issued calls as an `Effect` trace, in program order. -/

/-- One observable step of `start_streaming` or `stop_streaming`. -/
inductive Effect where
  /-- a `print` diagnostic -/
  | log (msg : String)
  /-- `self.get_broadcast_status()` -/
  | getBroadcastStatus
  /-- `liveBroadcasts().bind(...)`; `some` carries the stream key id,
  `none` is the detach call with no `streamId` argument -/
  | bindStream (streamId : Option String)
  /-- the Zoom `livestream/status` patch with the given action -/
  | zoomLivestream (action : String)
  /-- `time.sleep(seconds)` -/
  | sleep (seconds : Nat)
  /-- `self.get_stream_status()` -/
  | getStreamStatus
  /-- `liveBroadcasts().transition(broadcastStatus=status, ...)` -/
  | transition (status : String)
  /-- `videos().update(...)` setting `embeddable: True` -/
  | enableEmbed
  deriving Repr, DecidableEq

/-- The spreadsheet and provider values `start_streaming` and
`stop_streaming` read: the `"Time Slot Type"` cell of the first slot, the
set of special notes, the computer row, and the statuses the YouTube API
reports. -/
structure StreamEnv where
  timeslotType : Option String
  specialNotes : List String
  computer : String
  streamKey : String
  streamKeyId : String
  broadcastId : String
  broadcastStatus : String
  streamStatus : String
  streamHealth : String
  deriving Repr, DecidableEq

/-- `Session.start_streaming` (schedule.py lines 305-367) as the trace of
calls it issues, in program order. The `retries` counter of the source
starts at 0 and is incremented exactly once before the `retries >= 2`
check, which is kept verbatim as `0 + 1 >= 2`; the diagnostic behind it
is therefore never printed, the stream status is polled only once, and
the broadcast transition is issued regardless of the polled status. -/
def start_streaming (env : StreamEnv) : List Effect :=
  if env.timeslotType == some "Zoom Only" || env.timeslotType == some "Discord Only" then
    [.log "Not streaming Zoom/Discord only event"]
  else if env.specialNotes.contains "Manual Stream" then
    [.log ("Stream for the session must be assigned to computer "
      ++ env.computer ++ " and advanced manually")]
  else
    [.getBroadcastStatus] ++
    if env.broadcastStatus != "ready" && env.broadcastStatus != "created" then
      [.log ("Broadcast " ++ env.broadcastId ++ " is in state "
        ++ env.broadcastStatus ++ ", and cannot be (re-)made live")]
    else
      [.log ("Attaching stream " ++ env.streamKey ++ " to " ++ env.broadcastId),
       .bindStream (some env.streamKeyId),
       .zoomLivestream "start",
       .log "Sleeping 10s for Zoom live stream to begin",
       .sleep 10,
       .getStreamStatus] ++
      (if env.streamStatus != "active" then
         [.log ("Stream on computer " ++ env.computer ++ " (key " ++ env.streamKey
            ++ ") for broadcast " ++ env.broadcastId ++ " is not active (currently "
            ++ env.streamStatus ++ "). will wait 10s longer for Zoom and retry"),
          .sleep 10] ++
         (if (0 + 1 : Nat) ≥ 2 then
            [.log "Retried 2 times and zoom stream is still not live!?"]
          else [])
       else []) ++
      (if env.streamHealth != "good" then
        [.log ("WARNING: Stream on computer " ++ env.computer ++ " (key "
          ++ env.streamKey ++ ") is active, but not healthy. Health status is "
          ++ env.streamHealth)]
       else []) ++
      [.transition "live"]

/-- `Session.stop_streaming` (schedule.py lines 369-419) as the trace of
calls it issues, in program order. -/
def stop_streaming (env : StreamEnv) : List Effect :=
  if env.timeslotType == some "Zoom Only" || env.timeslotType == some "Discord Only" then
    [.log "No stream to stop for Zoom/Discord only event"]
  else if env.specialNotes.contains "Manual Stream" then
    [.log "Stream for the session must be stopped manually"]
  else
    [.getBroadcastStatus] ++
    if env.broadcastStatus == "complete" then
      [.log ("Broadcast " ++ env.broadcastId
        ++ " has already been made complete, skipping redundant transition")]
    else if env.broadcastStatus != "live" then
      [.log ("Broadcast " ++ env.broadcastId ++ " is " ++ env.broadcastStatus
        ++ ", not live, cannot make complete")]
    else
      [.transition "complete",
       .bindStream none,
       .enableEmbed,
       .zoomLivestream "stop"]

/-- Calls that change provider state, as opposed to reads, sleeps and
diagnostics. -/
def Effect.isAction : Effect → Bool
  | .bindStream _ => true
  | .zoomLivestream _ => true
  | .transition _ => true
  | .enableEmbed => true
  | _ => false

/-- The trace block `start_streaming` emits when the polled stream is not
active: the diagnostic and the extra wait (the retry counter never
reaches 2, so nothing else). -/
def notActiveBlock (env : StreamEnv) : List Effect :=
  if env.streamStatus != "active" then
    [.log ("Stream on computer " ++ env.computer ++ " (key " ++ env.streamKey
       ++ ") for broadcast " ++ env.broadcastId ++ " is not active (currently "
       ++ env.streamStatus ++ "). will wait 10s longer for Zoom and retry"),
     .sleep 10]
  else []

/-- The trace block `start_streaming` emits when the polled stream is not
healthy: a single warning. -/
def healthBlock (env : StreamEnv) : List Effect :=
  if env.streamHealth != "good" then
    [.log ("WARNING: Stream on computer " ++ env.computer ++ " (key "
      ++ env.streamKey ++ ") is active, but not healthy. Health status is "
      ++ env.streamHealth)]
  else []

/-- The concrete environment refuting C1: broadcast `ready`, polled
stream not active and not healthy. -/
def envC1 : StreamEnv :=
  { timeslotType := some "Live", specialNotes := [], computer := "C",
    streamKey := "sk1", streamKeyId := "skid1", broadcastId := "bid1",
    broadcastStatus := "ready", streamStatus := "inactive", streamHealth := "bad" }

/-- The concrete environment on which C2 is exercised: a streamed session
with broadcast status `ready` and an active healthy stream. -/
def envC2 : StreamEnv :=
  { timeslotType := some "Live", specialNotes := [], computer := "A",
    streamKey := "sk2", streamKeyId := "skid2", broadcastId := "bid2",
    broadcastStatus := "ready", streamStatus := "active", streamHealth := "good" }

/-- The concrete environment on which C3 is exercised: a streamed session
whose broadcast is `live`. -/
def envC3 : StreamEnv :=
  { timeslotType := some "Live", specialNotes := [], computer := "B",
    streamKey := "sk3", streamKeyId := "skid3", broadcastId := "bid3",
    broadcastStatus := "live", streamStatus := "active", streamHealth := "good" }

/-! ## The livestream patch of `Session.schedule_zoom`
(schedule.py lines 497-513)

Everything `schedule_zoom` does before the `livestream` patch only
produces the values recorded in `ZoomEnv` (the meeting id and join URL
returned by the meeting-creation call, the generated password, and the
HTTP status of the patch itself). The tail embedded here is the check of
that status followed by the spreadsheet writes. -/

/-- The response and session values read by the tail of `schedule_zoom`. -/
structure ZoomEnv where
  addLivestreamStatus : Nat
  joinUrl : String
  meetingId : Nat
  password : String
  numTimeslots : Nat
  deriving Repr, DecidableEq

/-- Tail of `Session.schedule_zoom`: if `add_livestream.status_code` is
not 204 the process prints a diagnostic and exits with code 1 (the error
value carries both), and no cell of the sheet is written; otherwise the
three Zoom columns of every timeslot row are written. Each write is
`(timeslot index, column name, value)` in program order. -/
def schedule_zoom_livestream (env : ZoomEnv) :
    Except (String × Nat) (List (Nat × String × String)) :=
  if env.addLivestreamStatus != 204 then
    .error ("ERROR: Failed to set live stream for Zoom meeting", 1)
  else
    .ok ((List.range env.numTimeslots).flatMap (fun t =>
      [(t, "Zoom URL", env.joinUrl),
       (t, "Zoom Meeting ID", toString env.meetingId),
       (t, "Zoom Password", env.password)]))

/-! ## `Day.get_sessions` (schedule.py lines 183-211)

The loop walks the sheet rows from row 3 to the last row, skips rows
whose `Event` cell is empty and, unless `include_breaks` is set, rows
whose event is `BREAK`, and appends each remaining row number to the
`timeslots` list of the dict entry keyed by `event + "-" + session`.
Python dicts preserve insertion order, so the dict is modelled as an
insertion-ordered association list. -/

/-- One sheet row, restricted to the two cells `get_sessions` reads:
the `Event` cell (`none` models an empty cell) and the `Session` cell. -/
structure Row where
  event : Option String
  session : String
  deriving Repr, DecidableEq

/-- Whether the loop keeps a row: empty-event rows are always skipped and
`BREAK` rows are skipped unless `include_breaks` is set. -/
def keepRow (include_breaks : Bool) (r : Row) : Bool :=
  match r.event with
  | none => false
  | some e => include_breaks || e != "BREAK"

/-- `session_key = event_name + "-" + session_name`; only evaluated on
kept rows, whose event cell is present. -/
def sessionKey (r : Row) : String := r.event.getD "" ++ "-" ++ r.session

/-- `sessions[session_key].timeslots.append(r)` on the insertion-ordered
dict: append the row number to the existing entry with this key, or add
a new `(key, [r])` entry at the end when the key is new. -/
def addRow : List (String × List Nat) → String → Nat → List (String × List Nat)
  | [], key, r => [(key, [r])]
  | (k, ts) :: rest, key, r =>
    if k == key then (k, ts ++ [r]) :: rest
    else (k, ts) :: addRow rest key r

/-- The row loop of `get_sessions`; `i` is the current row number. -/
def get_sessionsAux (include_breaks : Bool) :
    Nat → List Row → List (String × List Nat) → List (String × List Nat)
  | _, [], acc => acc
  | i, row :: rest, acc =>
    if keepRow include_breaks row then
      get_sessionsAux include_breaks (i + 1) rest (addRow acc (sessionKey row) i)
    else
      get_sessionsAux include_breaks (i + 1) rest acc

/-- `Day.get_sessions(include_breaks)`: `rows` lists the sheet rows from
row 3 to `max_row`; the result maps each session key to the row numbers
of its time slots, in insertion order. -/
def get_sessions (include_breaks : Bool) (rows : List Row) :
    List (String × List Nat) :=
  get_sessionsAux include_breaks 3 rows []

/-- The kept `(session key, row number)` pairs starting at row number
`i`, in sheet order. -/
def keptPairs (include_breaks : Bool) : Nat → List Row → List (String × Nat)
  | _, [] => []
  | i, row :: rest =>
    if keepRow include_breaks row then
      (sessionKey row, i) :: keptPairs include_breaks (i + 1) rest
    else
      keptPairs include_breaks (i + 1) rest

/-- The row numbers of the kept rows of a sheet, in sheet order. -/
def keptIndices (include_breaks : Bool) (rows : List Row) : List Nat :=
  (keptPairs include_breaks 3 rows).map Prod.snd

/-- First-match association lookup, the dict access by key. -/
def lookupKey (k : String) : List (String × List Nat) → Option (List Nat)
  | [] => none
  | (k1, ts) :: rest => if k1 == k then some ts else lookupKey k rest

/-- The day sheet refuting the contiguity part of C4: kept rows 3, 4, 5
carrying the keys A-X, B-Y and A-X again, in that order. -/
def exRowsC4 : List Row :=
  [⟨some "A", "X"⟩, ⟨some "B", "Y"⟩, ⟨some "A", "X"⟩]

/-! ## Registrant sync: `get_all` of auth0_helper.py (lines 40-46, 178-259)

The file reads and network calls around the main loop are abstracted into
inputs: the Eventbrite registrations, the collected password-request
lines and the loaded `registered.json` dictionary are parameters (the
loader `load_already_registered` exists in the file only as a
commented-out block; its behaviour of returning the parsed
`registered.json` dictionary is taken from that block), the mail sender
`send_register_email` (also not defined in the file) is modelled as an
always-succeeding call recorded in the run state, and the random
password generator and bcrypt are passed in as value-producing
functions, since only the presence of their results as call arguments
matters. Python resolves the arity of a call at run time, so
`format_to_auth0` is modelled together with a dynamic-call wrapper that
raises `TypeError` when the argument count differs from the three
declared parameters. Python dicts are modelled as insertion-ordered
association lists. -/

/-- One record of `registered.json`: name, email, password, registration
date and the `emailed` flag; `none` models a record missing the
`"emailed"` key. -/
structure Registrant where
  name : String
  email : String
  password : String
  date : String
  emailed : Option Bool
  deriving Repr, DecidableEq

/-- The user object built by `format_to_auth0` (auth0_helper.py
lines 40-46). -/
structure Auth0User where
  email : String
  email_verified : Bool
  name : String
  password_hash : String
  deriving Repr, DecidableEq

/-- `format_to_auth0(email, name, password_hash)`: note the source
declares exactly three parameters. -/
def format_to_auth0 (email name password_hash : String) : Auth0User :=
  { email := email, email_verified := true, name := name,
    password_hash := password_hash }

/-- The `TypeError` Python raises when a three-parameter function is
called with four positional arguments. -/
def typeErrorMsg : String :=
  "TypeError: format_to_auth0() takes 3 positional arguments but 4 were given"

/-- A Python positional call of `format_to_auth0`: any argument count
other than the three declared parameters raises `TypeError` before the
body runs. -/
def callFormatToAuth0 : List String → Except String Auth0User
  | [email, name, password_hash] => .ok (format_to_auth0 email name password_hash)
  | _ => .error typeErrorMsg

/-- First-match lookup in the registered dictionary (`email in
all_registered` and `all_registered[email]`). -/
def lookupReg : List (String × Registrant) → String → Option Registrant
  | [], _ => none
  | (k, v) :: rest, e => if k == e then some v else lookupReg rest e

/-- `all_registered[email] = {...}`: replace the entry when the key
exists, append it otherwise. -/
def setReg : List (String × Registrant) → String → Registrant → List (String × Registrant)
  | [], e, v => [(e, v)]
  | (k, w) :: rest, e, v =>
    if k == e then (k, v) :: rest else (k, w) :: setReg rest e v

/-- `all_registered[email]["emailed"] = True` on an existing entry. -/
def setEmailedTrue : List (String × Registrant) → String → List (String × Registrant)
  | [], _ => []
  | (k, v) :: rest, e =>
    if k == e then (k, { v with emailed := some true }) :: rest
    else (k, v) :: setEmailedTrue rest e

/-- The gate of the main loop:
`email not in all_registered or not all_registered[email]["emailed"]`. -/
def needsImport (reg : List (String × Registrant)) (email : String) : Bool :=
  match lookupReg reg email with
  | none => true
  | some r => !(r.emailed.getD false)

/-- The mutable state threaded through the main loop of `get_all`. -/
structure GetAllState where
  reg : List (String × Registrant)
  allNew : List Auth0User
  emailsSent : List String
  deriving Repr, DecidableEq

/-- The main loop of `get_all` (auth0_helper.py lines 191-231) over the
remaining `(name, email)` items. `maxNew` is the `max_new` argument,
`pwReqs` the password-request lines, `sessionEmail` whether a mail
client is configured, `freshPw` and `bcryptHash` stand for the random
password generator and bcrypt. The `format_to_auth0` call of the import
branch passes four arguments, so on reaching it the loop aborts with the
`TypeError` and the state reached so far; the continuation after that
call is kept as the source has it, though it is unreachable. -/
def getAllLoop (maxNew : Int) (pwReqs : List String) (sessionEmail : Bool)
    (now : String) (freshPw bcryptHash : String → String) :
    List (String × String) → GetAllState → Except (String × GetAllState) GetAllState
  | [], st => .ok st
  | (name, email) :: rest, st =>
    if maxNew > 0 ∧ (st.allNew.length : Int) ≥ maxNew then
      .ok st
    else if email.length = 0 then
      getAllLoop maxNew pwReqs sessionEmail now freshPw bcryptHash rest st
    else if needsImport st.reg email then
      match callFormatToAuth0 [email, name,
          (if (lookupReg st.reg email).isNone then freshPw email
           else ((lookupReg st.reg email).map Registrant.password).getD ""),
          bcryptHash
            (if (lookupReg st.reg email).isNone then freshPw email
             else ((lookupReg st.reg email).map Registrant.password).getD "")] with
      | .error e => .error (e, st)
      | .ok u =>
        getAllLoop maxNew pwReqs sessionEmail now freshPw bcryptHash rest
          (if sessionEmail then
            { reg := setEmailedTrue
                (setReg st.reg email
                  ⟨name, email,
                   (if (lookupReg st.reg email).isNone then freshPw email
                    else ((lookupReg st.reg email).map Registrant.password).getD ""),
                   now, some false⟩) email,
              allNew := st.allNew ++ [u],
              emailsSent := st.emailsSent ++ [email] }
          else
            { st with
              allNew := st.allNew ++ [u],
              reg := setReg st.reg email
                ⟨name, email,
                 (if (lookupReg st.reg email).isNone then freshPw email
                  else ((lookupReg st.reg email).map Registrant.password).getD ""),
                 now, some false⟩ })
    else if pwReqs.contains email then
      getAllLoop maxNew pwReqs sessionEmail now freshPw bcryptHash rest
        (if sessionEmail then
          { st with emailsSent := st.emailsSent ++ [email],
                    reg := setEmailedTrue st.reg email }
        else st)
    else
      getAllLoop maxNew pwReqs sessionEmail now freshPw bcryptHash rest st

/-- Items contributed by the registry before the main loop runs: records
whose `emailed` flag is missing or false are appended to the Eventbrite
results (auth0_helper.py lines 184-188). -/
def registryExtras (reg : List (String × Registrant)) : List (String × String) :=
  (reg.filter (fun p => !(p.2.emailed.getD false))).map (fun p => (p.2.name, p.2.email))

/-- The same first loop writes the missing `emailed` flags back into the
dictionary before the main loop runs. -/
def normalizeReg (reg : List (String × Registrant)) : List (String × Registrant) :=
  reg.map (fun p => (p.1, { p.2 with emailed := some (p.2.emailed.getD false) }))

/-- The observable outcome of one `get_all` run: the emails sent, the new
user batch, whether the batch file and `registered.json` were written,
and the uncaught exception if one was raised. -/
structure GetAllResult where
  emailsSent : List String
  allNew : List Auth0User
  importWritten : Bool
  registeredWritten : Bool
  error : Option String
  deriving Repr, DecidableEq

/-- `get_all(transmit_to_auth0, session, logo_attachment, max_new)`
(auth0_helper.py lines 178-259): build the item list, run the main loop,
and afterwards write the import file only when the batch is nonempty and
`registered.json` only when additionally transmitting; an uncaught
exception aborts before any of the trailing writes. -/
def get_all (transmit sessionEmail : Bool) (eventbrite : List (String × String))
    (pwReqs : List String) (registry : List (String × Registrant)) (maxNew : Int)
    (now : String) (freshPw bcryptHash : String → String) : GetAllResult :=
  match getAllLoop maxNew pwReqs sessionEmail now freshPw bcryptHash
      (eventbrite ++ registryExtras registry)
      ⟨normalizeReg registry, [], []⟩ with
  | .error (e, st) =>
    { emailsSent := st.emailsSent, allNew := st.allNew,
      importWritten := false, registeredWritten := false, error := some e }
  | .ok st =>
    { emailsSent := st.emailsSent, allNew := st.allNew,
      importWritten := decide (st.allNew.length > 0),
      registeredWritten := decide (st.allNew.length > 0) && transmit,
      error := none }

/-- The registrant e-mail gate property tracked through a run: the given
address was neither emailed nor put into the import batch. -/
def untouched (e : String) (st : GetAllState) : Prop :=
  e ∉ st.emailsSent ∧ ∀ u ∈ st.allNew, u.email ≠ e

/-- `untouched` read off a loop outcome, aborted or not. -/
def untouchedResult (e : String) : Except (String × GetAllState) GetAllState → Prop
  | .ok st => untouched e st
  | .error (_, st) => untouched e st

/-- The concrete registrant record exercising C5: already emailed. -/
def regC5 : Registrant :=
  { name := "Ada", email := "ada@conf.org", password := "pw123",
    date := "2021-10-01", emailed := some true }

/-! # Theorems -/

/-! ## Time-slot helpers: C8 and C6 -/

theorem data_timeSlotStr (h1 m1 h2 m2 : Nat) :
    (timeSlotStr h1 m1 h2 m2).data =
      [digitChar (h1 / 10), digitChar (h1 % 10), digitChar (m1 / 10), digitChar (m1 % 10), '-',
       digitChar (h2 / 10), digitChar (h2 % 10), digitChar (m2 / 10), digitChar (m2 % 10)] := rfl

theorem isDigit_digitChar (k : Nat) (h : k < 10) : (digitChar k).isDigit = true := by
  interval_cases k <;> decide

theorem digitVal_digitChar (k : Nat) (h : k < 10) : digitVal (digitChar k) = k := by
  interval_cases k <;> decide

theorem matchTimeslot_timeSlotStr (h1 m1 h2 m2 : Nat)
    (e1 : h1 ≤ 23) (e2 : m1 ≤ 59) (e3 : h2 ≤ 23) (e4 : m2 ≤ 59) :
    matchTimeslot (timeSlotStr h1 m1 h2 m2) = some (h1, m1, h2, m2) := by
  have q1 : h1 / 10 < 10 := by omega
  have q2 : m1 / 10 < 10 := by omega
  have q3 : h2 / 10 < 10 := by omega
  have q4 : m2 / 10 < 10 := by omega
  have r1 : h1 % 10 < 10 := by omega
  have r2 : m1 % 10 < 10 := by omega
  have r3 : h2 % 10 < 10 := by omega
  have r4 : m2 % 10 < 10 := by omega
  rw [matchTimeslot, data_timeSlotStr, matchTimeslotChars]
  rw [if_pos]
  · rw [digitVal_digitChar _ q1, digitVal_digitChar _ r1, digitVal_digitChar _ q2,
      digitVal_digitChar _ r2, digitVal_digitChar _ q3, digitVal_digitChar _ r3,
      digitVal_digitChar _ q4, digitVal_digitChar _ r4]
    rw [Nat.div_add_mod h1 10, Nat.div_add_mod m1 10, Nat.div_add_mod h2 10,
      Nat.div_add_mod m2 10]
  · rw [isDigit_digitChar _ q1, isDigit_digitChar _ r1, isDigit_digitChar _ q2,
      isDigit_digitChar _ r2, isDigit_digitChar _ q3, isDigit_digitChar _ r3,
      isDigit_digitChar _ q4, isDigit_digitChar _ r4]
    rfl

theorem parse_time_slot_timeSlotStr (h1 m1 h2 m2 month day : Nat)
    (e1 : h1 ≤ 23) (e2 : m1 ≤ 59) (e3 : h2 ≤ 23) (e4 : m2 ≤ 59)
    (hvd : validDate month day) :
    parse_time_slot (timeSlotStr h1 m1 h2 m2) month day =
      some (⟨CONFERENCE_YEAR, month, day, h1, m1, confTzHours⟩,
            ⟨CONFERENCE_YEAR, month, day, h2, m2, confTzHours⟩) := by
  obtain ⟨v1, v2, v3, v4⟩ := hvd
  rw [parse_time_slot, matchTimeslot_timeSlotStr h1 m1 h2 m2 e1 e2 e3 e4]
  simp only [Option.bind_eq_bind, Option.some_bind]
  rw [show mkDatetime CONFERENCE_YEAR month day h1 m1 =
        some ⟨CONFERENCE_YEAR, month, day, h1, m1, confTzHours⟩ from
      if_pos ⟨v1, v2, v3, v4, e1, e2⟩]
  simp only [Option.some_bind]
  rw [show mkDatetime CONFERENCE_YEAR month day h2 m2 =
        some ⟨CONFERENCE_YEAR, month, day, h2, m2, confTzHours⟩ from
      if_pos ⟨v1, v2, v3, v4, e3, e4⟩]
  rfl

theorem format_time_slot_mk (h1 m1 h2 m2 month day : Nat) :
    format_time_slot ⟨CONFERENCE_YEAR, month, day, h1, m1, confTzHours⟩
        ⟨CONFERENCE_YEAR, month, day, h2, m2, confTzHours⟩ =
      timeSlotStr h1 m1 h2 m2 := rfl

/-- C8: for every string of the form `HHMM-HHMM` whose two encoded times
have hour between 00 and 23 and minute between 00 and 59, and every valid
month and day, `format_time_slot` applied to the pair returned by
`parse_time_slot` yields back exactly the original string. -/
theorem C8_time_slot_round_trip (h1 m1 h2 m2 month day : Nat)
    (e1 : h1 ≤ 23) (e2 : m1 ≤ 59) (e3 : h2 ≤ 23) (e4 : m2 ≤ 59)
    (hvd : validDate month day) :
    ∃ start stop,
      parse_time_slot (timeSlotStr h1 m1 h2 m2) month day = some (start, stop) ∧
      format_time_slot start stop = timeSlotStr h1 m1 h2 m2 := by
  refine ⟨_, _, parse_time_slot_timeSlotStr h1 m1 h2 m2 month day e1 e2 e3 e4 hvd, ?_⟩
  exact format_time_slot_mk h1 m1 h2 m2 month day

/-- C8 witness: the round trip evaluated on the concrete slot string
`0930-1705` for October 25. -/
theorem C8_witness :
    ∃ start stop,
      parse_time_slot "0930-1705" 10 25 = some (start, stop) ∧
      format_time_slot start stop = "0930-1705" := by
  have h := C8_time_slot_round_trip 9 30 17 5 10 25 (by decide) (by decide)
    (by decide) (by decide) (by decide)
  rwa [show timeSlotStr 9 30 17 5 = "0930-1705" from rfl] at h

/-- C6: for a session with at least one time slot, `session_time` returns
the pair whose start is the first half of the first slot string and whose
end is the second half of the last slot string, both placed on the fixed
month and day in the fixed conference year and conference time zone. -/
theorem C6_session_time_first_last (s : SessionSlots) (h1 m1 h2 m2 h3 m3 h4 m4 : Nat)
    (hfirst : s.timeslotValues.head? = some (timeSlotStr h1 m1 h2 m2))
    (hlast : s.timeslotValues.getLast? = some (timeSlotStr h3 m3 h4 m4))
    (e1 : h1 ≤ 23) (e2 : m1 ≤ 59) (e3 : h2 ≤ 23) (e4 : m2 ≤ 59)
    (e5 : h3 ≤ 23) (e6 : m3 ≤ 59) (e7 : h4 ≤ 23) (e8 : m4 ≤ 59)
    (hvd : validDate s.month s.day) :
    session_time s =
      some (⟨CONFERENCE_YEAR, s.month, s.day, h1, m1, confTzHours⟩,
            ⟨CONFERENCE_YEAR, s.month, s.day, h4, m4, confTzHours⟩) := by
  rw [session_time]
  rw [show s.timeslotValues.get? 0 = some (timeSlotStr h1 m1 h2 m2) by
    rw [List.get?_eq_getElem?, ← List.head?_eq_getElem?]; exact hfirst]
  simp only [Option.bind_eq_bind, Option.some_bind]
  rw [show s.timeslotValues.get? (s.timeslotValues.length - 1) =
        some (timeSlotStr h3 m3 h4 m4) by
    rw [List.get?_eq_getElem?, ← List.getLast?_eq_getElem?]; exact hlast]
  simp only [Option.some_bind]
  rw [parse_time_slot_timeSlotStr h1 m1 h2 m2 s.month s.day e1 e2 e3 e4 hvd]
  simp only [Option.some_bind]
  rw [parse_time_slot_timeSlotStr h3 m3 h4 m4 s.month s.day e5 e6 e7 e8 hvd]
  rfl

/-- C6 witness: a two-slot session on October 26, first slot
`0800-0850`, last slot `0905-0955`. -/
theorem C6_witness :
    session_time ⟨["0800-0850", "0905-0955"], 10, 26⟩ =
      some (⟨2021, 10, 26, 8, 0, -5⟩, ⟨2021, 10, 26, 9, 55, -5⟩) := by
  have h := C6_session_time_first_last ⟨["0800-0850", "0905-0955"], 10, 26⟩
    8 0 8 50 9 5 9 55
    (by rw [show timeSlotStr 8 0 8 50 = "0800-0850" from rfl]; rfl)
    (by rw [show timeSlotStr 9 5 9 55 = "0905-0955" from rfl]; rfl)
    (by decide) (by decide) (by decide) (by decide)
    (by decide) (by decide) (by decide) (by decide) (by decide)
  exact h

/-! ## YouTube sanitization: C9 -/

theorem length_replaceChar (a b : Char) (s : String) :
    (replaceChar a b s).length = s.length := by
  show (s.data.map (fun c => if c == a then b else c)).length = s.data.length
  exact List.length_map _ _

theorem not_mem_replaceChar_self (a b : Char) (s : String) (hne : a ≠ b) :
    a ∉ (replaceChar a b s).data := by
  intro hmem
  rcases List.mem_map.mp hmem with ⟨c, _, hc⟩
  split at hc
  · exact hne hc.symm
  · rename_i hfalse
    exact hfalse (beq_iff_eq.mpr hc)

theorem not_mem_replaceChar_of_not_mem (a b x : Char) (s : String)
    (hx : x ∉ s.data) (hxb : x ≠ b) : x ∉ (replaceChar a b s).data := by
  intro hmem
  rcases List.mem_map.mp hmem with ⟨c, hcmem, hc⟩
  split at hc
  · exact hxb hc.symm
  · exact hx (hc ▸ hcmem)

theorem replaceChar_of_not_mem (a b : Char) (s : String) (ha : a ∉ s.data) :
    replaceChar a b s = s := by
  have hmap : s.data.map (fun c => if c == a then b else c) = s.data := by
    conv_rhs => rw [← List.map_id s.data]
    apply List.map_congr_left
    intro c hc
    have hne : ¬((c == a) = true) := by
      intro hbeq
      exact ha (beq_iff_eq.mp hbeq ▸ hc)
    rw [if_neg hne]
    rfl
  rw [replaceChar, hmap]

/-- C9: `make_youtube_title` always yields at most 100 characters with no
angle brackets, `make_youtube_description` at most 5000; inputs within
the limit are returned with only the angle brackets replaced by spaces,
and unchanged when they contain none. -/
theorem C9_youtube_sanitize (s : String) :
    ((make_youtube_title s).length ≤ 100 ∧
     '<' ∉ (make_youtube_title s).data ∧ '>' ∉ (make_youtube_title s).data) ∧
    ((make_youtube_description s).length ≤ 5000 ∧
     '<' ∉ (make_youtube_description s).data ∧
     '>' ∉ (make_youtube_description s).data) ∧
    (s.length ≤ 100 →
      make_youtube_title s = replaceChar '>' ' ' (replaceChar '<' ' ' s)) ∧
    (s.length ≤ 5000 →
      make_youtube_description s = replaceChar '>' ' ' (replaceChar '<' ' ' s)) ∧
    ('<' ∉ s.data → '>' ∉ s.data → s.length ≤ 100 → make_youtube_title s = s) ∧
    ('<' ∉ s.data → '>' ∉ s.data → s.length ≤ 5000 →
      make_youtube_description s = s) := by
  have hlen2 : (replaceChar '>' ' ' (replaceChar '<' ' ' s)).length = s.length := by
    rw [length_replaceChar, length_replaceChar]
  have hlt : '<' ∉ (replaceChar '>' ' ' (replaceChar '<' ' ' s)).data :=
    not_mem_replaceChar_of_not_mem _ _ _ _
      (not_mem_replaceChar_self '<' ' ' s (by decide)) (by decide)
  have hgt : '>' ∉ (replaceChar '>' ' ' (replaceChar '<' ' ' s)).data :=
    not_mem_replaceChar_self '>' ' ' _ (by decide)
  have htake : ∀ (n : Nat) (x : Char) (l : List Char), x ∉ l → x ∉ l.take n := by
    intro n x l hx hmem
    exact hx (List.take_subset n l hmem)
  refine ⟨⟨?_, ?_, ?_⟩, ⟨?_, ?_, ?_⟩, ?_, ?_, ?_, ?_⟩
  · rw [make_youtube_title]
    split
    · show ((replaceChar '>' ' ' (replaceChar '<' ' ' s)).data.take 99).length ≤ 100
      rw [List.length_take]
      omega
    · omega
  · rw [make_youtube_title]
    split
    · exact htake _ _ _ hlt
    · exact hlt
  · rw [make_youtube_title]
    split
    · exact htake _ _ _ hgt
    · exact hgt
  · rw [make_youtube_description]
    split
    · show ((replaceChar '>' ' ' (replaceChar '<' ' ' s)).data.take 4999).length ≤ 5000
      rw [List.length_take]
      omega
    · omega
  · rw [make_youtube_description]
    split
    · exact htake _ _ _ hlt
    · exact hlt
  · rw [make_youtube_description]
    split
    · exact htake _ _ _ hgt
    · exact hgt
  · intro hs
    rw [make_youtube_title, if_neg (by omega)]
  · intro hs
    rw [make_youtube_description, if_neg (by omega)]
  · intro h1 h2 hs
    rw [make_youtube_title, if_neg (by omega),
      replaceChar_of_not_mem '<' ' ' s h1,
      replaceChar_of_not_mem '>' ' ' s h2]
  · intro h1 h2 hs
    rw [make_youtube_description, if_neg (by omega),
      replaceChar_of_not_mem '<' ' ' s h1,
      replaceChar_of_not_mem '>' ' ' s h2]

/-- C9 witness: the sanitization evaluated on the concrete inputs
`a<b>c` and `plain`. -/
theorem C9_witness :
    '<' ∉ (make_youtube_title "a<b>c").data ∧
    make_youtube_title "plain" = "plain" := by
  refine ⟨(C9_youtube_sanitize "a<b>c").1.2.1, ?_⟩
  exact (C9_youtube_sanitize "plain").2.2.2.2.1 (by decide) (by decide) (by decide)

/-! ## Streaming lifecycle: C2, C3, C1 -/

theorem typeGuard_false (env : StreamEnv)
    (h1 : env.timeslotType ≠ some "Zoom Only")
    (h2 : env.timeslotType ≠ some "Discord Only") :
    (env.timeslotType == some "Zoom Only"
      || env.timeslotType == some "Discord Only") = false := by
  simp [h1, h2]

theorem notesGuard_false (env : StreamEnv)
    (h3 : "Manual Stream" ∉ env.specialNotes) :
    env.specialNotes.contains "Manual Stream" = false := by
  simpa using h3

/-- The full trace of `start_streaming` when the three guards pass and
the broadcast is `ready` or `created`. -/
theorem start_streaming_ready_trace (env : StreamEnv)
    (h1 : env.timeslotType ≠ some "Zoom Only")
    (h2 : env.timeslotType ≠ some "Discord Only")
    (h3 : "Manual Stream" ∉ env.specialNotes)
    (h4 : env.broadcastStatus = "ready" ∨ env.broadcastStatus = "created") :
    start_streaming env =
      [.getBroadcastStatus,
       .log ("Attaching stream " ++ env.streamKey ++ " to " ++ env.broadcastId),
       .bindStream (some env.streamKeyId),
       .zoomLivestream "start",
       .log "Sleeping 10s for Zoom live stream to begin",
       .sleep 10,
       .getStreamStatus] ++ notActiveBlock env ++ healthBlock env ++ [.transition "live"] := by
  have hb1 := typeGuard_false env h1 h2
  have hb2 := notesGuard_false env h3
  have hb3 : (env.broadcastStatus != "ready" && env.broadcastStatus != "created") = false := by
    rcases h4 with hs | hs <;> simp [hs]
  rw [start_streaming, hb1, if_neg (by simp), hb2, if_neg (by simp), hb3,
    if_neg (by simp)]
  rw [show (if (0 + 1 : Nat) ≥ 2 then
        [Effect.log "Retried 2 times and zoom stream is still not live!?"]
      else ([] : List Effect)) = [] from if_neg (by omega)]
  rfl

theorem mem_notActiveBlock (env : StreamEnv) (e : Effect)
    (he : e ∈ notActiveBlock env) : (∃ m, e = Effect.log m) ∨ e = Effect.sleep 10 := by
  rw [notActiveBlock] at he
  split at he
  · simp only [List.mem_cons, List.not_mem_nil, or_false] at he
    rcases he with he | he
    · exact Or.inl ⟨_, he⟩
    · exact Or.inr he
  · exact absurd he (List.not_mem_nil e)

theorem mem_healthBlock (env : StreamEnv) (e : Effect)
    (he : e ∈ healthBlock env) : ∃ m, e = Effect.log m := by
  rw [healthBlock] at he
  split at he
  · simp only [List.mem_cons, List.not_mem_nil, or_false] at he
    exact ⟨_, he⟩
  · exact absurd he (List.not_mem_nil e)

/-- C2: `start_streaming` is valid only from `ready` or `created`. With
any other broadcast status it logs and returns, issuing no bind, no Zoom
signal and no transition; from `ready` or `created` it binds the stream
key, signals the Zoom provider to start, sleeps the fixed 10 seconds,
polls the stream status once and transitions the broadcast to `live`,
with only diagnostics and an extra sleep in between. -/
theorem C2_start_streaming_preconditions (env : StreamEnv)
    (h1 : env.timeslotType ≠ some "Zoom Only")
    (h2 : env.timeslotType ≠ some "Discord Only")
    (h3 : "Manual Stream" ∉ env.specialNotes) :
    (env.broadcastStatus ≠ "ready" → env.broadcastStatus ≠ "created" →
      (∃ m, start_streaming env = [.getBroadcastStatus, .log m]) ∧
      (∀ sid, Effect.bindStream sid ∉ start_streaming env) ∧
      (∀ a, Effect.zoomLivestream a ∉ start_streaming env) ∧
      (∀ st, Effect.transition st ∉ start_streaming env)) ∧
    (env.broadcastStatus = "ready" ∨ env.broadcastStatus = "created" →
      ∃ mid,
        start_streaming env =
          [.getBroadcastStatus,
           .log ("Attaching stream " ++ env.streamKey ++ " to " ++ env.broadcastId),
           .bindStream (some env.streamKeyId),
           .zoomLivestream "start",
           .log "Sleeping 10s for Zoom live stream to begin",
           .sleep 10,
           .getStreamStatus] ++ mid ++ [.transition "live"] ∧
        ∀ e ∈ mid, (∃ m, e = Effect.log m) ∨ e = Effect.sleep 10) := by
  have hb1 := typeGuard_false env h1 h2
  have hb2 := notesGuard_false env h3
  constructor
  · intro hs1 hs2
    have hb3 : (env.broadcastStatus != "ready" && env.broadcastStatus != "created") = true := by
      simp [hs1, hs2]
    rw [start_streaming, hb1, if_neg (by simp), hb2, if_neg (by simp), hb3, if_pos rfl]
    refine ⟨⟨_, rfl⟩, ?_, ?_, ?_⟩ <;> simp
  · intro hs
    refine ⟨notActiveBlock env ++ healthBlock env, ?_, ?_⟩
    · rw [start_streaming_ready_trace env h1 h2 h3 hs]
      simp [List.append_assoc]
    · intro e he
      rcases List.mem_append.mp he with he | he
      · exact mem_notActiveBlock env e he
      · exact Or.inl (mem_healthBlock env e he)

/-- C2 witness: the `ready` branch of C2 evaluated on `envC2`. -/
theorem C2_witness :
    ∃ mid,
      start_streaming envC2 =
        [.getBroadcastStatus,
         .log ("Attaching stream " ++ envC2.streamKey ++ " to " ++ envC2.broadcastId),
         .bindStream (some envC2.streamKeyId),
         .zoomLivestream "start",
         .log "Sleeping 10s for Zoom live stream to begin",
         .sleep 10,
         .getStreamStatus] ++ mid ++ [.transition "live"] ∧
      ∀ e ∈ mid, (∃ m, e = Effect.log m) ∨ e = Effect.sleep 10 :=
  (C2_start_streaming_preconditions envC2 (by decide) (by decide) (by decide)).2
    (Or.inl rfl)

/-- C3: `stop_streaming` is valid only from `live` and is a no-op from
`complete`: from `complete` it only prints and issues no provider call;
from `live` it transitions the broadcast to `complete`, detaches the
stream key, re-enables embedding and signals Zoom to stop, in that order;
from any other status it logs and issues no provider call. -/
theorem C3_stop_streaming_transitions (env : StreamEnv)
    (h1 : env.timeslotType ≠ some "Zoom Only")
    (h2 : env.timeslotType ≠ some "Discord Only")
    (h3 : "Manual Stream" ∉ env.specialNotes) :
    (env.broadcastStatus = "complete" →
      (stop_streaming env).filter Effect.isAction = [] ∧
      ∃ m, stop_streaming env = [.getBroadcastStatus, .log m]) ∧
    (env.broadcastStatus = "live" →
      stop_streaming env =
        [.getBroadcastStatus, .transition "complete", .bindStream none,
         .enableEmbed, .zoomLivestream "stop"]) ∧
    (env.broadcastStatus ≠ "complete" → env.broadcastStatus ≠ "live" →
      (stop_streaming env).filter Effect.isAction = [] ∧
      ∃ m, stop_streaming env = [.getBroadcastStatus, .log m]) := by
  have hb1 := typeGuard_false env h1 h2
  have hb2 := notesGuard_false env h3
  refine ⟨?_, ?_, ?_⟩
  · intro hs
    rw [stop_streaming, hb1, if_neg (by simp), hb2, if_neg (by simp),
      show (env.broadcastStatus == "complete") = true by simp [hs], if_pos rfl]
    exact ⟨by simp [Effect.isAction], _, rfl⟩
  · intro hs
    rw [stop_streaming, hb1, if_neg (by simp), hb2, if_neg (by simp),
      show (env.broadcastStatus == "complete") = false by simp [hs], if_neg (by simp),
      show (env.broadcastStatus != "live") = false by simp [hs], if_neg (by simp)]
    rfl
  · intro hs1 hs2
    rw [stop_streaming, hb1, if_neg (by simp), hb2, if_neg (by simp),
      show (env.broadcastStatus == "complete") = false by simp [hs1], if_neg (by simp),
      show (env.broadcastStatus != "live") = true by simp [hs2], if_pos rfl]
    exact ⟨by simp [Effect.isAction], _, rfl⟩

/-- C3 witness: the `live` branch of C3 evaluated on `envC3`. -/
theorem C3_witness :
    stop_streaming envC3 =
      [.getBroadcastStatus, .transition "complete", .bindStream none,
       .enableEmbed, .zoomLivestream "stop"] :=
  (C3_stop_streaming_transitions envC3 (by decide) (by decide) (by decide)).2.1 rfl

/-- C1 counterexample: on `envC1` every hypothesis of C1 holds (not a
Zoom/Discord-only session, no `Manual Stream` note, broadcast status
`ready`, polled stream not active), yet `start_streaming` still issues
the transition of the broadcast to `live`, so it does not fail by logging
and returning as the claim states. -/
theorem C1_counterexample :
    envC1.timeslotType ≠ some "Zoom Only" ∧
    envC1.timeslotType ≠ some "Discord Only" ∧
    "Manual Stream" ∉ envC1.specialNotes ∧
    envC1.broadcastStatus = "ready" ∧
    envC1.streamStatus ≠ "active" ∧
    Effect.transition "live" ∈ start_streaming envC1 := by
  refine ⟨by decide, by decide, by decide, rfl, by decide, ?_⟩
  decide

/-- C1 (amended): when the polled stream reports not active after the
single retry wait (the status is never re-polled), `start_streaming` logs
a diagnostic and sleeps 10 more seconds, but does not return early: it
raises no exception, performs no rollback (no stream detach, no Zoom stop
signal), and still transitions the broadcast to `live` as its final
call. -/
theorem C1_not_active_still_goes_live (env : StreamEnv)
    (h1 : env.timeslotType ≠ some "Zoom Only")
    (h2 : env.timeslotType ≠ some "Discord Only")
    (h3 : "Manual Stream" ∉ env.specialNotes)
    (h4 : env.broadcastStatus = "ready" ∨ env.broadcastStatus = "created")
    (h5 : env.streamStatus ≠ "active") :
    notActiveBlock env =
      [.log ("Stream on computer " ++ env.computer ++ " (key " ++ env.streamKey
         ++ ") for broadcast " ++ env.broadcastId ++ " is not active (currently "
         ++ env.streamStatus ++ "). will wait 10s longer for Zoom and retry"),
       .sleep 10] ∧
    (∃ m, Effect.log m ∈ start_streaming env) ∧
    Effect.sleep 10 ∈ start_streaming env ∧
    (start_streaming env).getLast? = some (Effect.transition "live") ∧
    Effect.bindStream none ∉ start_streaming env ∧
    Effect.zoomLivestream "stop" ∉ start_streaming env := by
  rw [start_streaming_ready_trace env h1 h2 h3 h4]
  refine ⟨by rw [notActiveBlock, if_pos (by simp [h5])],
    ⟨"Sleeping 10s for Zoom live stream to begin", by simp⟩, by simp, ?_, ?_, ?_⟩
  · exact List.getLast?_concat _
  · intro hmem
    rcases List.mem_append.mp hmem with hmem | hmem
    · rcases List.mem_append.mp hmem with hmem | hmem
      · rcases List.mem_append.mp hmem with hmem | hmem
        · simp at hmem
        · rcases mem_notActiveBlock env _ hmem with ⟨m, hm⟩ | hm
          · exact absurd hm (by simp)
          · exact absurd hm (by simp)
      · rcases mem_healthBlock env _ hmem with ⟨m, hm⟩
        exact absurd hm (by simp)
    · simp at hmem
  · intro hmem
    rcases List.mem_append.mp hmem with hmem | hmem
    · rcases List.mem_append.mp hmem with hmem | hmem
      · rcases List.mem_append.mp hmem with hmem | hmem
        · simp at hmem
        · rcases mem_notActiveBlock env _ hmem with ⟨m, hm⟩ | hm
          · exact absurd hm (by simp)
          · exact absurd hm (by simp)
      · rcases mem_healthBlock env _ hmem with ⟨m, hm⟩
        exact absurd hm (by simp)
    · simp at hmem

/-- C1 witness for the amended claim, evaluated on `envC1`. -/
theorem C1_witness :
    envC1.streamStatus ≠ "active" ∧
    (start_streaming envC1).getLast? = some (Effect.transition "live") :=
  ⟨by decide,
   (C1_not_active_still_goes_live envC1 (by decide) (by decide) (by decide)
     (Or.inl rfl) (by decide)).2.2.2.1⟩

/-! ## Zoom livestream patch: C7 -/

/-- C7: if the livestream patch of `schedule_zoom` returns any status
other than 204 the process prints a diagnostic and exits with code 1 and
no Zoom cell of the sheet is written; when it returns 204 the `Zoom URL`,
`Zoom Meeting ID` and `Zoom Password` cells are written for every
timeslot. -/
theorem C7_zoom_patch_exits (env : ZoomEnv) :
    (env.addLivestreamStatus ≠ 204 →
      schedule_zoom_livestream env =
        .error ("ERROR: Failed to set live stream for Zoom meeting", 1)) ∧
    (env.addLivestreamStatus = 204 →
      ∃ writes, schedule_zoom_livestream env = .ok writes ∧
        ∀ t < env.numTimeslots,
          (t, "Zoom URL", env.joinUrl) ∈ writes ∧
          (t, "Zoom Meeting ID", toString env.meetingId) ∈ writes ∧
          (t, "Zoom Password", env.password) ∈ writes) := by
  constructor
  · intro h
    rw [schedule_zoom_livestream, if_pos (by simp [h])]
  · intro h
    rw [schedule_zoom_livestream, if_neg (by simp [h])]
    refine ⟨_, rfl, ?_⟩
    intro t ht
    refine ⟨?_, ?_, ?_⟩ <;>
      exact List.mem_flatMap.mpr ⟨t, List.mem_range.mpr ht, by simp⟩

/-- C7 witness: a failed patch (HTTP 400) exits with code 1, and a
successful patch (HTTP 204) writes the three cells of both timeslots. -/
theorem C7_witness :
    schedule_zoom_livestream ⟨400, "https://zoom.example/j", 123, "pw", 2⟩ =
      .error ("ERROR: Failed to set live stream for Zoom meeting", 1) :=
  (C7_zoom_patch_exits ⟨400, "https://zoom.example/j", 123, "pw", 2⟩).1 (by decide)

/-! ## Row grouping: C4 -/

theorem get_sessionsAux_eq_foldl (ib : Bool) (rows : List Row) :
    ∀ (i : Nat) (acc : List (String × List Nat)),
      get_sessionsAux ib i rows acc =
        (keptPairs ib i rows).foldl (fun a p => addRow a p.1 p.2) acc := by
  induction rows with
  | nil => intro i acc; rfl
  | cons row rest ih =>
    intro i acc
    by_cases h : keepRow ib row = true
    · simp only [get_sessionsAux, keptPairs]
      rw [if_pos h, if_pos h, List.foldl_cons]
      exact ih (i + 1) _
    · simp only [get_sessionsAux, keptPairs]
      rw [if_neg h, if_neg h]
      exact ih (i + 1) acc

theorem lookupKey_addRow (acc : List (String × List Nat)) (key : String) (r : Nat)
    (k : String) :
    lookupKey k (addRow acc key r) =
      if k = key then some (((lookupKey k acc).getD []) ++ [r])
      else lookupKey k acc := by
  induction acc with
  | nil =>
    by_cases h : k = key
    · simp [addRow, lookupKey, h]
    · simp [addRow, lookupKey, h, Ne.symm h]
  | cons hd tl ih =>
    obtain ⟨k1, ts⟩ := hd
    by_cases h1 : k1 = key
    · subst h1
      by_cases h2 : k = k1
      · subst h2
        simp [addRow, lookupKey]
      · simp [addRow, lookupKey, h2, Ne.symm h2]
    · by_cases h2 : k1 = k
      · subst h2
        have h3 : ¬(k1 = key) := h1
        simp [addRow, lookupKey, h1, h3]
      · simp [addRow, lookupKey, h1, h2, ih]

theorem keys_addRow (acc : List (String × List Nat)) (key : String) (r : Nat) :
    (addRow acc key r).map Prod.fst =
      if key ∈ acc.map Prod.fst then acc.map Prod.fst
      else acc.map Prod.fst ++ [key] := by
  induction acc with
  | nil => simp [addRow]
  | cons hd tl ih =>
    obtain ⟨k1, ts⟩ := hd
    by_cases h1 : k1 = key
    · subst h1
      simp [addRow]
    · by_cases h2 : key ∈ tl.map Prod.fst
      · simp [addRow, h1, ih, h2, Ne.symm h1]
      · simp [addRow, h1, ih, h2, Ne.symm h1]

theorem nodup_keys_addRow (acc : List (String × List Nat)) (key : String) (r : Nat)
    (h : (acc.map Prod.fst).Nodup) : ((addRow acc key r).map Prod.fst).Nodup := by
  rw [keys_addRow]
  split
  · exact h
  · rename_i hni
    refine h.append (List.nodup_singleton key) ?_
    intro a ha hb
    rw [List.mem_singleton] at hb
    exact hni (hb ▸ ha)

theorem lookupKey_foldl_some (l : List (String × Nat)) :
    ∀ (acc : List (String × List Nat)) (k : String) (ts : List Nat),
      lookupKey k acc = some ts →
      lookupKey k (l.foldl (fun a p => addRow a p.1 p.2) acc) =
        some (ts ++ (l.filter (fun p => p.1 == k)).map Prod.snd) := by
  induction l with
  | nil => intro acc k ts h; simpa using h
  | cons hd tl ih =>
    obtain ⟨k1, r⟩ := hd
    intro acc k ts h
    rw [List.foldl_cons]
    by_cases h1 : k = k1
    · subst h1
      have hstep : lookupKey k (addRow acc k r) = some (ts ++ [r]) := by
        rw [lookupKey_addRow, if_pos rfl, h]
        rfl
      rw [ih _ _ _ hstep]
      simp [List.filter_cons]
    · have hstep : lookupKey k (addRow acc k1 r) = some ts := by
        rw [lookupKey_addRow, if_neg h1]
        exact h
      rw [ih _ _ _ hstep]
      simp [List.filter_cons, Ne.symm h1]

theorem lookupKey_foldl_none (l : List (String × Nat)) :
    ∀ (acc : List (String × List Nat)) (k : String),
      lookupKey k acc = none →
      lookupKey k (l.foldl (fun a p => addRow a p.1 p.2) acc) =
        if (l.filter (fun p => p.1 == k)) = [] then none
        else some ((l.filter (fun p => p.1 == k)).map Prod.snd) := by
  induction l with
  | nil => intro acc k h; simpa using h
  | cons hd tl ih =>
    obtain ⟨k1, r⟩ := hd
    intro acc k h
    rw [List.foldl_cons]
    by_cases h1 : k = k1
    · subst h1
      have hstep : lookupKey k (addRow acc k r) = some [r] := by
        rw [lookupKey_addRow, if_pos rfl, h]
        rfl
      rw [lookupKey_foldl_some tl _ _ _ hstep]
      simp [List.filter_cons]
    · have hstep : lookupKey k (addRow acc k1 r) = none := by
        rw [lookupKey_addRow, if_neg h1]
        exact h
      have hf : List.filter (fun p => p.1 == k) ((k1, r) :: tl) =
          List.filter (fun p => p.1 == k) tl := by
        simp [List.filter_cons, Ne.symm h1]
      rw [ih _ _ hstep, hf]

theorem nodup_keys_foldl (l : List (String × Nat)) :
    ∀ (acc : List (String × List Nat)), (acc.map Prod.fst).Nodup →
      ((l.foldl (fun a p => addRow a p.1 p.2) acc).map Prod.fst).Nodup := by
  induction l with
  | nil => intro acc h; simpa using h
  | cons hd tl ih =>
    intro acc h
    rw [List.foldl_cons]
    exact ih _ (nodup_keys_addRow _ _ _ h)

theorem mem_iff_lookupKey :
    ∀ (assoc : List (String × List Nat)), ((assoc.map Prod.fst).Nodup) →
      ∀ (k : String) (ts : List Nat), ((k, ts) ∈ assoc ↔ lookupKey k assoc = some ts) := by
  intro assoc
  induction assoc with
  | nil => intro _ k ts; simp [lookupKey]
  | cons hd tl ih =>
    intro h k ts
    obtain ⟨k1, ts1⟩ := hd
    simp only [List.map_cons, List.nodup_cons] at h
    obtain ⟨hk1, htl⟩ := h
    by_cases h1 : k1 = k
    · subst h1
      constructor
      · intro hmem
        rcases List.mem_cons.mp hmem with heq | hmem
        · cases heq
          simp [lookupKey]
        · exact absurd (List.mem_map_of_mem Prod.fst hmem) hk1
      · intro hlk
        rw [show lookupKey k1 ((k1, ts1) :: tl) = some ts1 by
          show (if (k1 == k1) = true then some ts1 else lookupKey k1 tl) = some ts1
          rw [if_pos (by simp)]] at hlk
        injection hlk with h2
        rw [← h2]
        exact List.mem_cons_self _ _
    · rw [show lookupKey k ((k1, ts1) :: tl) = lookupKey k tl by
        simp only [lookupKey]; rw [if_neg (by simp [h1])]]
      constructor
      · intro hmem
        rcases List.mem_cons.mp hmem with heq | hmem
        · injection heq with h2 h3
          exact absurd h2.symm h1
        · exact (ih htl k ts).mp hmem
      · intro hlk
        exact List.mem_cons_of_mem _ ((ih htl k ts).mpr hlk)

theorem le_snd_of_mem_keptPairs (ib : Bool) :
    ∀ (rows : List Row) (i : Nat) (p : String × Nat),
      p ∈ keptPairs ib i rows → i ≤ p.2 := by
  intro rows
  induction rows with
  | nil => intro i p hp; simp [keptPairs] at hp
  | cons row rest ih =>
    intro i p hp
    by_cases h : keepRow ib row = true
    · simp only [keptPairs] at hp
      rw [if_pos h] at hp
      rcases List.mem_cons.mp hp with heq | hp
      · rw [heq]
      · have := ih (i + 1) p hp
        omega
    · simp only [keptPairs] at hp
      rw [if_neg h] at hp
      have := ih (i + 1) p hp
      omega

theorem pairwise_keptPairs (ib : Bool) :
    ∀ (rows : List Row) (i : Nat),
      (keptPairs ib i rows).Pairwise (fun a b => a.2 < b.2) := by
  intro rows
  induction rows with
  | nil => intro i; simp [keptPairs]
  | cons row rest ih =>
    intro i
    by_cases h : keepRow ib row = true
    · simp only [keptPairs]
      rw [if_pos h]
      refine List.Pairwise.cons ?_ (ih (i + 1))
      intro b hb
      have := le_snd_of_mem_keptPairs ib rest (i + 1) b hb
      show i < b.2
      omega
    · simp only [keptPairs]
      rw [if_neg h]
      exact ih (i + 1)

theorem nodup_snd_keptPairs (ib : Bool) (rows : List Row) (i : Nat) :
    ((keptPairs ib i rows).map Prod.snd).Nodup := by
  have hp : (keptPairs ib i rows).Pairwise (fun a b => Prod.snd a ≠ Prod.snd b) :=
    (pairwise_keptPairs ib rows i).imp (fun h => Nat.ne_of_lt h)
  exact List.pairwise_map.mpr hp

theorem keptPairs_snd_inj (ib : Bool) (rows : List Row) (i : Nat)
    (p q : String × Nat) (hp : p ∈ keptPairs ib i rows) (hq : q ∈ keptPairs ib i rows)
    (h2 : p.2 = q.2) : p = q :=
  List.inj_on_of_nodup_map (nodup_snd_keptPairs ib rows i) hp hq h2

theorem lookupKey_get_sessions (ib : Bool) (rows : List Row) (k : String) :
    lookupKey k (get_sessions ib rows) =
      if ((keptPairs ib 3 rows).filter (fun p => p.1 == k)) = [] then none
      else some (((keptPairs ib 3 rows).filter (fun p => p.1 == k)).map Prod.snd) := by
  rw [get_sessions, get_sessionsAux_eq_foldl]
  exact lookupKey_foldl_none _ _ _ rfl

theorem nodup_keys_get_sessions (ib : Bool) (rows : List Row) :
    ((get_sessions ib rows).map Prod.fst).Nodup := by
  rw [get_sessions, get_sessionsAux_eq_foldl]
  exact nodup_keys_foldl _ _ (by simp)

/-- C4 (amended): `Day.get_sessions` groups the kept rows (rows 3 to the
last row, skipping empty-event rows and, unless `include_breaks` is set,
`BREAK` rows) by their `(event, session)` key: each returned session owns
exactly the kept rows carrying its key, in increasing row order, and
every kept row belongs to exactly one returned session. The rows of one
session need not be contiguous: separated runs with the same key are
merged into the same session. -/
theorem C4_get_sessions_grouping (include_breaks : Bool) (rows : List Row) :
    (∀ k ts, (k, ts) ∈ get_sessions include_breaks rows →
      ts = ((keptPairs include_breaks 3 rows).filter (fun p => p.1 == k)).map Prod.snd ∧
      ts.Pairwise (· < ·)) ∧
    (∀ i, i ∈ keptIndices include_breaks rows ↔
      ∃ k ts, (k, ts) ∈ get_sessions include_breaks rows ∧ i ∈ ts) ∧
    (∀ k1 ts1 k2 ts2 i, (k1, ts1) ∈ get_sessions include_breaks rows →
      (k2, ts2) ∈ get_sessions include_breaks rows →
      i ∈ ts1 → i ∈ ts2 → k1 = k2 ∧ ts1 = ts2) := by
  have hnd := nodup_keys_get_sessions include_breaks rows
  have part1 : ∀ k ts, (k, ts) ∈ get_sessions include_breaks rows →
      ts = ((keptPairs include_breaks 3 rows).filter (fun p => p.1 == k)).map Prod.snd := by
    intro k ts hmem
    have hlk := (mem_iff_lookupKey _ hnd k ts).mp hmem
    rw [lookupKey_get_sessions] at hlk
    split at hlk
    · exact absurd hlk (by simp)
    · injection hlk with h2
      exact h2.symm
  have pairwise1 : ∀ k,
      (((keptPairs include_breaks 3 rows).filter (fun p => p.1 == k)).map Prod.snd).Pairwise
        (· < ·) := by
    intro k
    exact List.pairwise_map.mpr
      (List.Pairwise.filter _ (pairwise_keptPairs include_breaks rows 3))
  refine ⟨fun k ts h => ⟨part1 k ts h, (part1 k ts h) ▸ pairwise1 k⟩, ?_, ?_⟩
  · intro i
    rw [keptIndices]
    constructor
    · intro hi
      rcases List.mem_map.mp hi with ⟨p, hp, hsnd⟩
      have hpf : p ∈ (keptPairs include_breaks 3 rows).filter (fun q => q.1 == p.1) :=
        List.mem_filter.mpr ⟨hp, by simp⟩
      have hne : ((keptPairs include_breaks 3 rows).filter (fun q => q.1 == p.1)) ≠ [] :=
        fun hc => by simp [hc] at hpf
      refine ⟨p.1,
        ((keptPairs include_breaks 3 rows).filter (fun q => q.1 == p.1)).map Prod.snd,
        ?_, ?_⟩
      · apply (mem_iff_lookupKey _ hnd _ _).mpr
        rw [lookupKey_get_sessions, if_neg hne]
      · exact hsnd ▸ List.mem_map_of_mem Prod.snd hpf
    · rintro ⟨k, ts, hmem, hits⟩
      have h1 := part1 k ts hmem
      rw [h1] at hits
      rcases List.mem_map.mp hits with ⟨p, hpf, hsnd⟩
      have hp : p ∈ keptPairs include_breaks 3 rows := (List.mem_filter.mp hpf).1
      exact hsnd ▸ List.mem_map_of_mem Prod.snd hp
  · intro k1 ts1 k2 ts2 i hm1 hm2 hi1 hi2
    have h1 := part1 k1 ts1 hm1
    have h2 := part1 k2 ts2 hm2
    rw [h1] at hi1
    rw [h2] at hi2
    rcases List.mem_map.mp hi1 with ⟨p, hpf, hps⟩
    rcases List.mem_map.mp hi2 with ⟨q, hqf, hqs⟩
    obtain ⟨hpk, hpb⟩ := List.mem_filter.mp hpf
    obtain ⟨hqk, hqb⟩ := List.mem_filter.mp hqf
    have hpq : p = q :=
      keptPairs_snd_inj include_breaks rows 3 p q hpk hqk (by rw [hps, hqs])
    have hk : k1 = k2 := by
      have e1 : p.1 = k1 := by simpa using hpb
      have e2 : q.1 = k2 := by simpa using hqb
      rw [← e1, ← e2, hpq]
    exact ⟨hk, by rw [h1, h2, hk]⟩

/-- C4 counterexample: on the sheet whose kept rows 3, 4, 5 carry the
keys A-X, B-Y, A-X, the returned session `A-X` owns rows 3 and 5 while
the kept row 4 between them belongs to session `B-Y`: the timeslot list
`[3, 5]` of `A-X` is not a contiguous run of the kept rows `[3, 4, 5]`. -/
theorem C4_counterexample :
    get_sessions false exRowsC4 = [("A-X", [3, 5]), ("B-Y", [4])] ∧
    keptIndices false exRowsC4 = [3, 4, 5] := by
  constructor
  · rfl
  · rfl

/-- C4 witness: the amended grouping evaluated on the three-row sheet. -/
theorem C4_witness :
    [3, 5] = ((keptPairs false 3 exRowsC4).filter (fun p => p.1 == "A-X")).map Prod.snd ∧
    List.Pairwise (· < ·) [3, 5] :=
  (C4_get_sessions_grouping false exRowsC4).1 "A-X" [3, 5] (by decide)

/-! ## Registrant sync: C5 and C10 -/

theorem length_ne_zero_of_ne_empty (s : String) (h : s ≠ "") : ¬(s.length = 0) := by
  simp only [String.length]
  intro h0
  apply h
  apply String.ext
  simpa using List.length_eq_zero.mp h0

theorem lookupReg_of_mem_nodup :
    ∀ (reg : List (String × Registrant)), (reg.map Prod.fst).Nodup →
      ∀ (e : String) (r : Registrant), (e, r) ∈ reg → lookupReg reg e = some r := by
  intro reg
  induction reg with
  | nil => intro _ e r h; simp at h
  | cons hd tl ih =>
    intro hnd e r h
    obtain ⟨k, v⟩ := hd
    simp only [List.map_cons, List.nodup_cons] at hnd
    obtain ⟨hk1, htl⟩ := hnd
    rcases List.mem_cons.mp h with heq | hmem
    · injection heq with h1 h2
      subst h1
      subst h2
      show (if (e == e) = true then some r else lookupReg tl e) = some r
      rw [if_pos (by simp)]
    · have hne : k ≠ e := by
        intro hk
        subst hk
        exact hk1 (List.mem_map_of_mem Prod.fst hmem)
      show (if (k == e) = true then some v else lookupReg tl e) = some r
      rw [if_neg (by simp [hne])]
      exact ih htl e r hmem

theorem lookupReg_exists_of_mem :
    ∀ (reg : List (String × Registrant)) (e : String) (r : Registrant),
      (e, r) ∈ reg → ∃ w, lookupReg reg e = some w ∧ (e, w) ∈ reg := by
  intro reg
  induction reg with
  | nil => intro e r h; simp at h
  | cons hd tl ih =>
    intro e r h
    obtain ⟨k, v⟩ := hd
    by_cases hk : k = e
    · subst hk
      refine ⟨v, ?_, List.mem_cons_self _ _⟩
      show (if (k == k) = true then some v else lookupReg tl k) = some v
      rw [if_pos (by simp)]
    · rcases List.mem_cons.mp h with heq | hmem
      · injection heq with h1 h2
        exact absurd h1.symm hk
      · obtain ⟨w, hw1, hw2⟩ := ih e r hmem
        refine ⟨w, ?_, List.mem_cons_of_mem _ hw2⟩
        show (if (k == e) = true then some v else lookupReg tl e) = some w
        rw [if_neg (by simp [hk])]
        exact hw1

theorem lookupReg_normalizeReg (reg : List (String × Registrant)) (e : String) :
    lookupReg (normalizeReg reg) e =
      (lookupReg reg e).map
        (fun r => { r with emailed := some (r.emailed.getD false) }) := by
  induction reg with
  | nil => rfl
  | cons hd tl ih =>
    obtain ⟨k, v⟩ := hd
    have hcons : normalizeReg ((k, v) :: tl) =
        (k, { v with emailed := some (v.emailed.getD false) }) :: normalizeReg tl := rfl
    rw [hcons]
    by_cases hk : k = e
    · subst hk
      show (if (k == k) = true then _ else _) = _
      rw [if_pos (by simp)]
      show _ = (if (k == k) = true then some v else lookupReg tl k).map _
      rw [if_pos (by simp)]
      rfl
    · show (if (k == e) = true then _ else _) = _
      rw [if_neg (by simp [hk])]
      show _ = (if (k == e) = true then some v else lookupReg tl e).map _
      rw [if_neg (by simp [hk])]
      exact ih

theorem needsImport_of_emailed (reg : List (String × Registrant)) (e : String)
    (r : Registrant) (hl : lookupReg reg e = some r) (he : r.emailed = some true) :
    needsImport reg e = false := by
  simp [needsImport, hl, he]

theorem lookupReg_setEmailedTrue (reg : List (String × Registrant)) (x e : String) :
    lookupReg (setEmailedTrue reg x) e =
      if x = e then (lookupReg reg e).map (fun r => { r with emailed := some true })
      else lookupReg reg e := by
  induction reg with
  | nil => by_cases h : x = e <;> simp [setEmailedTrue, lookupReg, h]
  | cons hd tl ih =>
    obtain ⟨k, v⟩ := hd
    by_cases hk : k = x
    · subst hk
      by_cases hke : k = e
      · subst hke
        simp [setEmailedTrue, lookupReg]
      · have hxe : ¬(k = e) := hke
        simp [setEmailedTrue, lookupReg, hke, hxe]
    · by_cases hke : k = e
      · subst hke
        have hxk : ¬(x = k) := fun h => hk h.symm
        simp [setEmailedTrue, lookupReg, hk, hxk]
      · simp [setEmailedTrue, lookupReg, hk, hke, ih]

theorem needsImport_setEmailedTrue (reg : List (String × Registrant)) (x e : String)
    (h : needsImport reg e = false) : needsImport (setEmailedTrue reg x) e = false := by
  cases hl : lookupReg reg e with
  | none => simp [needsImport, hl] at h
  | some r =>
    by_cases hxe : x = e
    · simp [needsImport, lookupReg_setEmailedTrue, hxe, hl]
    · simp [needsImport, hl] at h
      simp [needsImport, lookupReg_setEmailedTrue, hxe, hl, h]

theorem getAllLoop_untouched (maxNew : Int) (pwReqs : List String)
    (sessionEmail : Bool) (now : String) (freshPw bcryptHash : String → String)
    (e : String) (hpw : e ∉ pwReqs) :
    ∀ (items : List (String × String)) (st : GetAllState),
      needsImport st.reg e = false → untouched e st →
      untouchedResult e
        (getAllLoop maxNew pwReqs sessionEmail now freshPw bcryptHash items st) := by
  intro items
  induction items with
  | nil => intro st _ hu; exact hu
  | cons item rest ih =>
    obtain ⟨name, email⟩ := item
    intro st hni hu
    simp only [getAllLoop]
    by_cases hbreak : (maxNew > 0 ∧ (st.allNew.length : Int) ≥ maxNew)
    · rw [if_pos hbreak]
      exact hu
    · rw [if_neg hbreak]
      by_cases hlen : email.length = 0
      · rw [if_pos hlen]
        exact ih st hni hu
      · rw [if_neg hlen]
        by_cases hneed : needsImport st.reg email = true
        · rw [if_pos hneed]
          exact hu
        · rw [if_neg hneed]
          by_cases hpq : pwReqs.contains email = true
          · rw [if_pos hpq]
            have hmem : email ∈ pwReqs := by simpa using hpq
            have hne : email ≠ e := fun hq => hpw (hq ▸ hmem)
            apply ih
            · by_cases hse : sessionEmail = true
              · rw [if_pos hse]
                exact needsImport_setEmailedTrue st.reg email e hni
              · rw [if_neg hse]
                exact hni
            · by_cases hse : sessionEmail = true
              · rw [if_pos hse]
                refine ⟨?_, hu.2⟩
                intro hc
                rcases List.mem_append.mp hc with hc | hc
                · exact hu.1 hc
                · rw [List.mem_singleton] at hc
                  exact hne hc.symm
              · rw [if_neg hse]
                exact hu
          · rw [if_neg hpq]
            exact ih st hni hu

theorem getAllLoop_no_new (maxNew : Int) (pwReqs : List String)
    (sessionEmail : Bool) (now : String) (freshPw bcryptHash : String → String) :
    ∀ (items : List (String × String)) (st : GetAllState),
      (∀ q ∈ items, q.2 = "" ∨ (needsImport st.reg q.2 = false ∧ q.2 ∉ pwReqs)) →
      getAllLoop maxNew pwReqs sessionEmail now freshPw bcryptHash items st = .ok st := by
  intro items
  induction items with
  | nil => intro st _; rfl
  | cons item rest ih =>
    obtain ⟨name, email⟩ := item
    intro st hall
    simp only [getAllLoop]
    by_cases hbreak : (maxNew > 0 ∧ (st.allNew.length : Int) ≥ maxNew)
    · rw [if_pos hbreak]
    · rw [if_neg hbreak]
      by_cases hlen : email.length = 0
      · rw [if_pos hlen]
        exact ih st (fun q hq => hall q (List.mem_cons_of_mem _ hq))
      · rw [if_neg hlen]
        rcases hall (name, email) (List.mem_cons_self _ _) with hemp | ⟨hneed, hpq⟩
        · have hemp2 : email = "" := hemp
          exact absurd (by rw [hemp2]; rfl : email.length = 0) hlen
        · rw [if_neg (by simp [hneed]), if_neg (by simpa using hpq)]
          exact ih st (fun q hq => hall q (List.mem_cons_of_mem _ hq))

theorem getAllLoop_error_typeError (maxNew : Int) (pwReqs : List String)
    (sessionEmail : Bool) (now : String) (freshPw bcryptHash : String → String) :
    ∀ (items : List (String × String)) (st : GetAllState) (m : String)
      (st2 : GetAllState),
      getAllLoop maxNew pwReqs sessionEmail now freshPw bcryptHash items st =
        .error (m, st2) → m = typeErrorMsg := by
  intro items
  induction items with
  | nil => intro st m st2 h; simp [getAllLoop] at h
  | cons item rest ih =>
    obtain ⟨name, email⟩ := item
    intro st m st2 h
    simp only [getAllLoop] at h
    by_cases hbreak : (maxNew > 0 ∧ (st.allNew.length : Int) ≥ maxNew)
    · rw [if_pos hbreak] at h
      simp at h
    · rw [if_neg hbreak] at h
      by_cases hlen : email.length = 0
      · rw [if_pos hlen] at h
        exact ih st m st2 h
      · rw [if_neg hlen] at h
        by_cases hneed : needsImport st.reg email = true
        · rw [if_pos hneed] at h
          have h2 : (Except.error (typeErrorMsg, st) :
              Except (String × GetAllState) GetAllState) = .error (m, st2) := h
          injection h2 with h3
          exact (congrArg Prod.fst h3).symm
        · rw [if_neg hneed] at h
          by_cases hpq : pwReqs.contains email = true
          · rw [if_pos hpq] at h
            exact ih _ m st2 h
          · rw [if_neg hpq] at h
            exact ih st m st2 h

/-- C10: the import branch of `get_all` calls `format_to_auth0` with
four positional arguments although the function declares three
parameters. Whenever the loop processes an email that is absent from the
registered store or recorded with `emailed` false (and nonempty, with
the batch limit not reached), it raises `TypeError` on that item with
the run state unchanged, so no email is sent for it; any aborted run
carries exactly this `TypeError` and writes neither the import file nor
`registered.json`. -/
theorem C10_format_to_auth0_arity :
    (∀ a b c d, callFormatToAuth0 [a, b, c, d] = .error typeErrorMsg) ∧
    (∀ (maxNew : Int) (pwReqs : List String) (sessionEmail : Bool) (now : String)
        (freshPw bcryptHash : String → String) (name email : String)
        (rest : List (String × String)) (st : GetAllState),
      ¬(maxNew > 0 ∧ (st.allNew.length : Int) ≥ maxNew) →
      email ≠ "" →
      needsImport st.reg email = true →
      getAllLoop maxNew pwReqs sessionEmail now freshPw bcryptHash
        ((name, email) :: rest) st = .error (typeErrorMsg, st)) ∧
    (∀ (transmit sessionEmail : Bool) (eventbrite : List (String × String))
        (pwReqs : List String) (registry : List (String × Registrant)) (maxNew : Int)
        (now : String) (freshPw bcryptHash : String → String) (m : String),
      (get_all transmit sessionEmail eventbrite pwReqs registry maxNew now freshPw
          bcryptHash).error = some m →
      m = typeErrorMsg ∧
      (get_all transmit sessionEmail eventbrite pwReqs registry maxNew now freshPw
          bcryptHash).importWritten = false ∧
      (get_all transmit sessionEmail eventbrite pwReqs registry maxNew now freshPw
          bcryptHash).registeredWritten = false) := by
  refine ⟨fun a b c d => rfl, ?_, ?_⟩
  · intro maxNew pwReqs sessionEmail now freshPw bcryptHash name email rest st
      hbreak hemail hneed
    simp only [getAllLoop]
    rw [if_neg hbreak, if_neg (length_ne_zero_of_ne_empty email hemail), if_pos hneed]
    rfl
  · intro transmit sessionEmail eventbrite pwReqs registry maxNew now freshPw
      bcryptHash m h
    rw [get_all] at h ⊢
    cases hloop : getAllLoop maxNew pwReqs sessionEmail now freshPw bcryptHash
        (eventbrite ++ registryExtras registry) ⟨normalizeReg registry, [], []⟩ with
    | error p =>
      obtain ⟨em, st⟩ := p
      rw [hloop] at h
      have h2 : some em = some m := h
      injection h2 with h3
      have h4 : em = typeErrorMsg :=
        getAllLoop_error_typeError maxNew pwReqs sessionEmail now freshPw bcryptHash
          _ _ em st hloop
      exact ⟨h3 ▸ h4, rfl, rfl⟩
    | ok st =>
      rw [hloop] at h
      have h2 : (none : Option String) = some m := h
      exact Option.noConfusion h2

/-- C10 witness: with an empty registered store, processing the single
Eventbrite item raises the `TypeError` with the state unchanged. -/
theorem C10_witness :
    getAllLoop (-1) [] true "2021-10-20" id id [("Bea", "bea@conf.org")]
        ⟨[], [], []⟩ = .error (typeErrorMsg, ⟨[], [], []⟩) :=
  C10_format_to_auth0_arity.2.1 (-1) [] true "2021-10-20" id id "Bea" "bea@conf.org"
    [] ⟨[], [], []⟩ (by decide) (by decide) rfl

/-- C5: the `emailed` flag gates re-sending. Any registered record
marked emailed whose address has no password request is neither emailed
again nor put into the import batch by a re-run of `get_all`; and a
re-run over a registry in which every record is emailed, where every
nonempty external registration is already registered and none has a
password request, completes without error, sends no email and produces
an empty import batch. -/
theorem C5_emailed_gates_resend :
    (∀ (transmit sessionEmail : Bool) (eventbrite : List (String × String))
        (pwReqs : List String) (registry : List (String × Registrant)) (maxNew : Int)
        (now : String) (freshPw bcryptHash : String → String) (e : String)
        (r : Registrant),
      (registry.map Prod.fst).Nodup →
      (e, r) ∈ registry → r.emailed = some true → e ∉ pwReqs →
      e ∉ (get_all transmit sessionEmail eventbrite pwReqs registry maxNew now freshPw
            bcryptHash).emailsSent ∧
      ∀ u ∈ (get_all transmit sessionEmail eventbrite pwReqs registry maxNew now
            freshPw bcryptHash).allNew, u.email ≠ e) ∧
    (∀ (transmit sessionEmail : Bool) (eventbrite : List (String × String))
        (pwReqs : List String) (registry : List (String × Registrant)) (maxNew : Int)
        (now : String) (freshPw bcryptHash : String → String),
      (∀ p ∈ registry, p.2.emailed = some true) →
      (∀ q ∈ eventbrite, q.2 ≠ "" → (∃ v, (q.2, v) ∈ registry) ∧ q.2 ∉ pwReqs) →
      (get_all transmit sessionEmail eventbrite pwReqs registry maxNew now freshPw
          bcryptHash).error = none ∧
      (get_all transmit sessionEmail eventbrite pwReqs registry maxNew now freshPw
          bcryptHash).emailsSent = [] ∧
      (get_all transmit sessionEmail eventbrite pwReqs registry maxNew now freshPw
          bcryptHash).allNew = [] ∧
      (get_all transmit sessionEmail eventbrite pwReqs registry maxNew now freshPw
          bcryptHash).importWritten = false) := by
  constructor
  · intro transmit sessionEmail eventbrite pwReqs registry maxNew now freshPw
      bcryptHash e r hnd hmem hemailed hpw
    have hlook : lookupReg registry e = some r :=
      lookupReg_of_mem_nodup registry hnd e r hmem
    have hlookN : lookupReg (normalizeReg registry) e =
        some { r with emailed := some (r.emailed.getD false) } := by
      rw [lookupReg_normalizeReg, hlook]
      rfl
    have hni : needsImport (normalizeReg registry) e = false := by
      apply needsImport_of_emailed _ _ _ hlookN
      simp [hemailed]
    have H := getAllLoop_untouched maxNew pwReqs sessionEmail now freshPw bcryptHash
      e hpw (eventbrite ++ registryExtras registry) ⟨normalizeReg registry, [], []⟩
      hni ⟨List.not_mem_nil e, fun u hu => absurd hu (List.not_mem_nil u)⟩
    rw [get_all]
    cases hloop : getAllLoop maxNew pwReqs sessionEmail now freshPw bcryptHash
        (eventbrite ++ registryExtras registry) ⟨normalizeReg registry, [], []⟩ with
    | error p =>
      obtain ⟨em, st⟩ := p
      rw [hloop] at H
      exact H
    | ok st =>
      rw [hloop] at H
      exact H
  · intro transmit sessionEmail eventbrite pwReqs registry maxNew now freshPw
      bcryptHash hall hev
    have hextras : registryExtras registry = [] := by
      have hfil : (registry.filter (fun p => !(p.2.emailed.getD false))) = [] :=
        List.filter_eq_nil_iff.mpr (fun p hp => by simp [hall p hp])
      rw [registryExtras, hfil]
      rfl
    have hitems : ∀ q ∈ eventbrite ++ registryExtras registry, q.2 = "" ∨
        (needsImport (normalizeReg registry) q.2 = false ∧ q.2 ∉ pwReqs) := by
      rw [hextras, List.append_nil]
      intro q hq
      by_cases hemp : q.2 = ""
      · exact Or.inl hemp
      · right
        obtain ⟨⟨v, hv⟩, hqpw⟩ := hev q hq hemp
        obtain ⟨w, hw1, hw2⟩ := lookupReg_exists_of_mem registry q.2 v hv
        have hwem : w.emailed = some true := hall (q.2, w) hw2
        refine ⟨?_, hqpw⟩
        apply needsImport_of_emailed _ _
          ({ w with emailed := some (w.emailed.getD false) })
        · rw [lookupReg_normalizeReg, hw1]
          rfl
        · simp [hwem]
    have hloop := getAllLoop_no_new maxNew pwReqs sessionEmail now freshPw bcryptHash
      (eventbrite ++ registryExtras registry) ⟨normalizeReg registry, [], []⟩ hitems
    rw [get_all, hloop]
    exact ⟨rfl, rfl, rfl, rfl⟩

/-- C5 witness: a registry with one already-emailed record whose address
also appears in the external feed; the re-run neither emails the record
nor puts it in the batch. -/
theorem C5_witness :
    "ada@conf.org" ∉ (get_all true true [("Ada", "ada@conf.org")] []
        [("ada@conf.org", regC5)] (-1) "2021-10-20" id id).emailsSent ∧
    ∀ u ∈ (get_all true true [("Ada", "ada@conf.org")] []
        [("ada@conf.org", regC5)] (-1) "2021-10-20" id id).allNew,
      u.email ≠ "ada@conf.org" :=
  C5_emailed_gates_resend.1 true true [("Ada", "ada@conf.org")] []
    [("ada@conf.org", regC5)] (-1) "2021-10-20" id id "ada@conf.org" regC5
    (by simp) (by simp) rfl (by simp)

end VirtConf
